import Mathlib

/-!
Verification of the kyverno policy cache (`pkg/policycache/cache.go`).

The Go code maintains an in-memory index from resource kind and enforcement
category to the ordered sequence of policy identifiers, plus a per-category
membership side-index used for deduplication.  We embed the state of `pMap`
as total functions (a missing Go map entry reads as the zero value: `false`
for the membership maps, `[]` for the kind index), and translate `add`,
`remove` and `get` as pure state transformers.
-/

namespace PolicyCache

/-- The four enforcement categories (`PolicyType` in the Go sources). -/
inductive PolicyType
  | Mutate
  | ValidateEnforce
  | ValidateAudit
  | Generate
deriving DecidableEq, Repr

open PolicyType

/-- The part of a kyverno rule that `pMap.add` inspects: the matched kinds
(`rule.MatchResources.Kinds`) and the capability predicates `HasMutate`,
`HasValidate`, `HasGenerate`. -/
structure Rule where
  matchKinds : List String
  hasMutate : Bool
  hasValidate : Bool
  hasGenerate : Bool
deriving DecidableEq, Repr

/-- The part of a `ClusterPolicy` that the cache inspects: `GetName()`,
`GetNamespace()` (empty for cluster-scoped policies),
`Spec.ValidationFailureAction` and `Spec.Rules`. -/
structure ClusterPolicy where
  name : String
  nspace : String
  validationFailureAction : String
  rules : List Rule
deriving DecidableEq, Repr

/-- State of the Go `pMap` struct: `kindDataMap` maps a kind and a category
to the ordered identifier sequence, `nameCacheMap` maps a category and a
composite key `kind ++ "/" ++ identifier` to its membership bit.  Absent Go
map entries are the zero values `[]` and `false`. -/
structure pMap where
  kindDataMap : String → PolicyType → List String
  nameCacheMap : PolicyType → String → Bool

/-- The freshly constructed cache of `newPolicyCache`: both maps empty. -/
def emptyPMap : pMap :=
  { kindDataMap := fun _ _ => [], nameCacheMap := fun _ _ => false }

/-- The policy identifier computed at the top of `add` and `remove`:
`pName = policy.GetName()`, prefixed by `pSpace ++ "/"` when the policy has a
namespace. -/
def policyIdent (policy : ClusterPolicy) : String :=
  if policy.nspace != "" then policy.nspace ++ "/" ++ policy.name else policy.name

/-- Set the membership bit `nameCacheMap[cat][key] = true`
(`mutateMap[kind+"/"+pName] = true` and its three siblings in `add`). -/
def setCache (s : pMap) (cat : PolicyType) (key : String) : pMap :=
  { s with
    nameCacheMap := fun c k =>
      if c = cat ∧ k = key then true else s.nameCacheMap c k }

/-- Append an identifier to the ordered sequence
`kindDataMap[kind][cat] = append(kindDataMap[kind][cat], pName)`. -/
def appendEntry (s : pMap) (kind : String) (cat : PolicyType) (pName : String) : pMap :=
  { s with
    kindDataMap := fun k c =>
      if k = kind ∧ c = cat then s.kindDataMap k c ++ [pName] else s.kindDataMap k c }

/-- One iteration of the inner kinds loop of `pMap.add` (cache.go lines
97-158).  The `_, ok := m.kindDataMap[kind]` initialization at lines 98-101
creates an empty inner map, which is invisible in the total-function model.
The Go `continue` statements end the current iteration, so each capability
block is an exclusive branch. -/
def processKind (policy : ClusterPolicy) (pName : String) (isNamespacedPolicy : Bool)
    (enforcePolicy : Bool) (rule : Rule) (s : pMap) (kind : String) : pMap :=
  if rule.hasMutate then
    if s.nameCacheMap Mutate (kind ++ "/" ++ pName) = false then
      let s1 := setCache s Mutate (kind ++ "/" ++ pName)
      if isNamespacedPolicy then appendEntry s1 kind Mutate pName
      else appendEntry s1 kind Mutate policy.name
    else s
  else if rule.hasValidate then
    if enforcePolicy then
      if s.nameCacheMap ValidateEnforce (kind ++ "/" ++ pName) = false then
        let s1 := setCache s ValidateEnforce (kind ++ "/" ++ pName)
        if isNamespacedPolicy then appendEntry s1 kind ValidateEnforce pName
        else appendEntry s1 kind ValidateEnforce policy.name
      else s
    else
      if s.nameCacheMap ValidateAudit (kind ++ "/" ++ pName) = false then
        let s1 := setCache s ValidateAudit (kind ++ "/" ++ pName)
        if isNamespacedPolicy then appendEntry s1 kind ValidateAudit pName
        else appendEntry s1 kind ValidateAudit policy.name
      else s
  else if rule.hasGenerate then
    if s.nameCacheMap Generate (kind ++ "/" ++ pName) = false then
      let s1 := setCache s Generate (kind ++ "/" ++ pName)
      if isNamespacedPolicy then appendEntry s1 kind Generate pName
      else appendEntry s1 kind Generate policy.name
    else s
  else s

/-- Translation of `pMap.add` (cache.go lines 78-164): index the policy under every
(kind, category) pair implied by its rules. -/
def pMap.add (s : pMap) (policy : ClusterPolicy) : pMap :=
  let enforcePolicy : Bool := policy.validationFailureAction == "enforce"
  let pName : String :=
    if policy.nspace != "" then policy.nspace ++ "/" ++ policy.name else policy.name
  let isNamespacedPolicy : Bool := policy.nspace != ""
  policy.rules.foldl
    (fun acc rule =>
      rule.matchKinds.foldl
        (processKind policy pName isNamespacedPolicy enforcePolicy rule) acc)
    s

/-- One iteration of the inner kinds loop of `pMap.remove` (cache.go lines
197-205): delete the composite key from the membership map of every
category.  Deleting a Go map key makes a later read return `false`. -/
def removeKind (pName : String) (s : pMap) (kind : String) : pMap :=
  { s with
    nameCacheMap := fun c k =>
      if k = kind ++ "/" ++ pName then false else s.nameCacheMap c k }

/-- Translation of `pMap.remove` (cache.go lines 188-207): for every rule and matched kind,
erase the composite key from all four membership maps; `kindDataMap` is not
touched. -/
def pMap.remove (s : pMap) (policy : ClusterPolicy) : pMap :=
  let pName : String :=
    if policy.nspace != "" then policy.nspace ++ "/" ++ policy.name else policy.name
  policy.rules.foldl
    (fun acc rule => rule.matchKinds.foldl (removeKind pName) acc)
    s

/-- Split a character sequence at its first `'/'`; `none` when no separator
occurs. -/
def splitFirstSlash : List Char → Option (List Char × List Char)
  | [] => none
  | c :: cs =>
    if c = '/' then some ([], cs)
    else
      match splitFirstSlash cs with
      | none => none
      | some (a, b) => some (c :: a, b)

/-- Modelled from the spec: `ParseIdentifier(identifier) -> (namespace, name,
isNamespaced)` (§6).  The function `policy2.ParseNamespacedPolicy` called by
`get` lives in `pkg/policy`, outside the sources under verification.  A
policy identifier encodes `namespace + "/" + name` for namespace-scoped
policies and a bare name for cluster-scoped ones (§2), so the parse splits
at the first separator when one is present and otherwise reports a
cluster-scoped name with an empty namespace. -/
def ParseNamespacedPolicy (key : String) : String × String × Bool :=
  match splitFirstSlash key.data with
  | none => ("", key, false)
  | some (ns, nm) => (⟨ns⟩, ⟨nm⟩, true)

/-- The loop body of `pMap.get` (cache.go lines 169-184), over the ordered
identifier sequence.  The listers and the namespaced-to-cluster conversion
are external collaborators and enter as function parameters; a lister's
error result is swallowed (`policy, _ := ...`), leaving a possibly absent
object (`none` models Go's nil pointer). -/
def getNames {P N : Type} (pLister : String → Option P)
    (npLister : String → String → Option N) (convert : Option N → Option P)
    (nspace : String) : List String → List String × List (Option P)
  | [] => ([], [])
  | policyName :: rest =>
    if (ParseNamespacedPolicy policyName).2.2 = false then
      (policyName :: (getNames pLister npLister convert nspace rest).1,
       pLister (ParseNamespacedPolicy policyName).2.1 ::
         (getNames pLister npLister convert nspace rest).2)
    else if (ParseNamespacedPolicy policyName).1 = nspace then
      ((ParseNamespacedPolicy policyName).2.1 ::
         (getNames pLister npLister convert nspace rest).1,
       convert (npLister (ParseNamespacedPolicy policyName).1
           (ParseNamespacedPolicy policyName).2.1) ::
         (getNames pLister npLister convert nspace rest).2)
    else getNames pLister npLister convert nspace rest

/-- Translation of `pMap.get` (cache.go lines 166-186): read `kindDataMap[kind][key]` and
resolve each identifier through the listers. -/
def pMap.get {P N : Type} (pLister : String → Option P)
    (npLister : String → String → Option N) (convert : Option N → Option P)
    (s : pMap) (key : PolicyType) (kind : String) (nspace : String) :
    List String × List (Option P) :=
  getNames pLister npLister convert nspace (s.kindDataMap kind key)

/-- What one identifier contributes to the result of `get`: `none` when the
entry is skipped (namespace mismatch), otherwise the returned name paired
with the resolved object.  Used to state positional correspondence of the
two result sequences. -/
def resolveEntry {P N : Type} (pLister : String → Option P)
    (npLister : String → String → Option N) (convert : Option N → Option P)
    (nspace : String) (policyName : String) : Option (String × Option P) :=
  if (ParseNamespacedPolicy policyName).2.2 = false then
    some (policyName, pLister (ParseNamespacedPolicy policyName).2.1)
  else if (ParseNamespacedPolicy policyName).1 = nspace then
    some ((ParseNamespacedPolicy policyName).2.1,
      convert (npLister (ParseNamespacedPolicy policyName).1
        (ParseNamespacedPolicy policyName).2.1))
  else none

/-- The classification of one rule into at most one enforcement category,
read off the exclusive branch structure of `pMap.add` (§4.1 of the spec):
mutate wins over validate, the validation-failure action splits validate
into enforce/audit, generate comes last, and a rule with no capability
contributes nothing. -/
def ruleCategory (enforcePolicy : Bool) (rule : Rule) : Option PolicyType :=
  if rule.hasMutate then some Mutate
  else if rule.hasValidate then
    if enforcePolicy then some ValidateEnforce else some ValidateAudit
  else if rule.hasGenerate then some Generate
  else none

/-- The effect of `processKind` for a rule classified into `cat`: guarded by
the membership bit, set it and append the identifier. -/
def addStep (pName : String) (cat : PolicyType) (s : pMap) (kind : String) : pMap :=
  if s.nameCacheMap cat (kind ++ "/" ++ pName) = false then
    appendEntry (setCache s cat (kind ++ "/" ++ pName)) kind cat pName
  else s

/-- The kinds-loop body of `add`, re-expressed through the rule's
classification: a rule with no capability leaves the state alone, otherwise
the guarded insert `addStep` runs for the classified category. -/
def catStep (enforcePolicy : Bool) (rule : Rule) (pName : String)
    (s : pMap) (kind : String) : pMap :=
  match ruleCategory enforcePolicy rule with
  | none => s
  | some cat => addStep pName cat s kind

/-- The rules-loop body of `add` in the classified form. -/
def ruleStep (enforcePolicy : Bool) (pName : String) (s : pMap) (rule : Rule) : pMap :=
  rule.matchKinds.foldl (catStep enforcePolicy rule pName) s

/-- The function `pMap.add` in the classified form; `add_eq_addCanon` below proves it
equal to the direct translation. -/
def addCanon (policy : ClusterPolicy) (s : pMap) : pMap :=
  policy.rules.foldl
    (ruleStep (policy.validationFailureAction == "enforce") (policyIdent policy)) s

/-- Folding `pMap.add` over a list of policies, for invariants about
Add-only histories. -/
def applyAdds (ps : List ClusterPolicy) (s : pMap) : pMap :=
  ps.foldl pMap.add s

/-! ### Generic fold lemmas -/

theorem foldl_preserve {α β : Type} (f : β → α → β) (Q : β → Prop)
    (h : ∀ b a, Q b → Q (f b a)) (l : List α) :
    ∀ b : β, Q b → Q (List.foldl f b l) := by
  induction l with
  | nil => intro b hb; exact hb
  | cons a l ih => intro b hb; exact ih (f b a) (h b a hb)

theorem foldl_establish {α β : Type} (f : β → α → β) (R : β → Prop) (a : α)
    (hest : ∀ b, R (f b a)) (hpres : ∀ b x, R b → R (f b x)) (l : List α) :
    ∀ b : β, a ∈ l → R (List.foldl f b l) := by
  induction l with
  | nil => intro b hb; cases hb
  | cons x l ih =>
    intro b hb
    rcases List.mem_cons.mp hb with h | h
    · subst h
      exact foldl_preserve f R (fun b x hx => hpres b x hx) l (f b a) (hest b)
    · exact ih (f b x) h

theorem foldl_fix {α β : Type} (f : β → α → β) :
    ∀ (l : List α) (b : β), (∀ a ∈ l, f b a = b) → List.foldl f b l = b := by
  intro l
  induction l with
  | nil => intro b _; rfl
  | cons x l ih =>
    intro b h
    have hx : f b x = b := h x (List.mem_cons_self x l)
    rw [List.foldl_cons, hx]
    exact ih b fun a ha => h a (List.mem_cons_of_mem x ha)

/-! ### Component lemmas for the primitive state updates -/

theorem setCache_kindDataMap (s : pMap) (cat : PolicyType) (key : String) :
    (setCache s cat key).kindDataMap = s.kindDataMap := rfl

theorem appendEntry_nameCacheMap (s : pMap) (kind : String) (cat : PolicyType)
    (pName : String) :
    (appendEntry s kind cat pName).nameCacheMap = s.nameCacheMap := rfl

theorem setCache_nameCacheMap (s : pMap) (cat : PolicyType) (key : String)
    (c : PolicyType) (k : String) :
    (setCache s cat key).nameCacheMap c k =
      if c = cat ∧ k = key then true else s.nameCacheMap c k := rfl

theorem appendEntry_kindDataMap (s : pMap) (kind : String) (cat : PolicyType)
    (pName : String) (k : String) (c : PolicyType) :
    (appendEntry s kind cat pName).kindDataMap k c =
      if k = kind ∧ c = cat then s.kindDataMap k c ++ [pName]
      else s.kindDataMap k c := rfl

/-- A string can be cancelled on the right of an append. -/
theorem append_cancel_r (a b c : String) (h : a ++ c = b ++ c) : a = b := by
  have hd : a.data ++ c.data = b.data ++ c.data := by
    have := congrArg String.data h
    simpa [String.data_append] using this
  have : a.data = b.data := List.append_cancel_right hd
  cases a; cases b; exact congrArg String.mk this

/-- The composite key `kind ++ "/" ++ pName` determines the kind. -/
theorem composite_key_inj (kind₁ kind₂ pName : String)
    (h : kind₁ ++ "/" ++ pName = kind₂ ++ "/" ++ pName) : kind₁ = kind₂ := by
  have h1 : kind₁ ++ "/" = kind₂ ++ "/" := append_cancel_r _ _ pName h
  exact append_cancel_r _ _ "/" h1

/-! ### addStep lemmas -/

theorem addStep_cache_mono (pName : String) (cat : PolicyType) (s : pMap)
    (kind : String) (c : PolicyType) (k : String)
    (h : s.nameCacheMap c k = true) :
    (addStep pName cat s kind).nameCacheMap c k = true := by
  unfold addStep
  split
  · simp only [appendEntry_nameCacheMap, setCache_nameCacheMap]
    split
    · rfl
    · exact h
  · exact h

theorem addStep_cache_self (pName : String) (cat : PolicyType) (s : pMap)
    (kind : String) :
    (addStep pName cat s kind).nameCacheMap cat (kind ++ "/" ++ pName) = true := by
  unfold addStep
  split
  · simp only [appendEntry_nameCacheMap, setCache_nameCacheMap]
    simp
  · next h => simpa using h

theorem addStep_kindDataMap_extend (pName : String) (cat : PolicyType) (s : pMap)
    (kind : String) (k : String) (c : PolicyType) :
    ∃ t, (addStep pName cat s kind).kindDataMap k c = s.kindDataMap k c ++ t := by
  unfold addStep
  split
  · simp only [appendEntry_kindDataMap, setCache_kindDataMap]
    split
    · exact ⟨[pName], rfl⟩
    · exact ⟨[], by simp⟩
  · exact ⟨[], by simp⟩

theorem addStep_kindDataMap_other (pName : String) (cat : PolicyType) (s : pMap)
    (kind : String) (k : String) (c : PolicyType) (h : ¬(k = kind ∧ c = cat)) :
    (addStep pName cat s kind).kindDataMap k c = s.kindDataMap k c := by
  unfold addStep
  split
  · simp only [appendEntry_kindDataMap, setCache_kindDataMap]
    rw [if_neg h]
  · rfl

theorem addStep_of_cache_true (pName : String) (cat : PolicyType) (s : pMap)
    (kind : String)
    (h : s.nameCacheMap cat (kind ++ "/" ++ pName) = true) :
    addStep pName cat s kind = s := by
  simp [addStep, h]

/-! ### The loop body in classified form -/

theorem processKind_eq (policy : ClusterPolicy) (pName : String)
    (isNamespacedPolicy enforcePolicy : Bool) (rule : Rule) (s : pMap) (kind : String)
    (hns : isNamespacedPolicy = false → policy.name = pName) :
    processKind policy pName isNamespacedPolicy enforcePolicy rule s kind =
      catStep enforcePolicy rule pName s kind := by
  cases hM : rule.hasMutate <;> cases hV : rule.hasValidate <;>
    cases hG : rule.hasGenerate <;> cases hE : enforcePolicy <;>
      cases hI : isNamespacedPolicy <;>
        simp_all [processKind, catStep, ruleCategory, addStep]

theorem policyIdent_of_cluster (policy : ClusterPolicy)
    (h : (policy.nspace != "") = false) : policy.name = policyIdent policy := by
  simp only [policyIdent, h]
  simp

theorem foldl_preserve_mem {α β : Type} (f : β → α → β) (Q : β → Prop) :
    ∀ (l : List α), (∀ b, ∀ a ∈ l, Q b → Q (f b a)) →
      ∀ b : β, Q b → Q (List.foldl f b l) := by
  intro l
  induction l with
  | nil => intro _ b hb; exact hb
  | cons x l ih =>
    intro h b hb
    exact ih (fun b' a ha hq => h b' a (List.mem_cons_of_mem x ha) hq) (f b x)
      (h b x (List.mem_cons_self x l) hb)

theorem foldl_congr_fun {α β : Type} (f g : β → α → β)
    (hfg : ∀ b a, f b a = g b a) (l : List α) :
    ∀ b : β, List.foldl f b l = List.foldl g b l := by
  induction l with
  | nil => intro b; rfl
  | cons x l ih =>
    intro b
    rw [List.foldl_cons, List.foldl_cons, hfg]
    exact ih (g b x)

theorem add_eq_addCanon (s : pMap) (policy : ClusterPolicy) :
    pMap.add s policy = addCanon policy s := by
  show policy.rules.foldl
      (fun acc rule =>
        rule.matchKinds.foldl
          (processKind policy (policyIdent policy)
            (policy.nspace != "") (policy.validationFailureAction == "enforce") rule)
          acc)
      s = addCanon policy s
  simp only [addCanon, ruleStep]
  exact foldl_congr_fun _ _
    (fun acc rule =>
      foldl_congr_fun _ _
        (fun b kind =>
          processKind_eq policy (policyIdent policy) _ _ rule b kind
            (fun h => policyIdent_of_cluster policy h))
        rule.matchKinds acc)
    policy.rules s

/-! ### catStep lemmas -/

theorem catStep_cache_mono (e : Bool) (rule : Rule) (pName : String) (s : pMap)
    (kind : String) (c : PolicyType) (k : String)
    (h : s.nameCacheMap c k = true) :
    (catStep e rule pName s kind).nameCacheMap c k = true := by
  cases hrc : ruleCategory e rule with
  | none => simpa [catStep, hrc] using h
  | some cat =>
    simp only [catStep, hrc]
    exact addStep_cache_mono pName cat s kind c k h

theorem catStep_kindDataMap_extend (e : Bool) (rule : Rule) (pName : String)
    (s : pMap) (kind : String) (k : String) (c : PolicyType) :
    ∃ t, (catStep e rule pName s kind).kindDataMap k c = s.kindDataMap k c ++ t := by
  cases hrc : ruleCategory e rule with
  | none => exact ⟨[], by simp [catStep, hrc]⟩
  | some cat =>
    simp only [catStep, hrc]
    exact addStep_kindDataMap_extend pName cat s kind k c

theorem catStep_cache_classified (e : Bool) (rule : Rule) (pName : String)
    (s : pMap) (kind : String) (cat : PolicyType)
    (hrc : ruleCategory e rule = some cat) :
    (catStep e rule pName s kind).nameCacheMap cat (kind ++ "/" ++ pName) = true := by
  simp only [catStep, hrc]
  exact addStep_cache_self pName cat s kind

theorem catStep_kindDataMap_not_classified (e : Bool) (rule : Rule) (pName : String)
    (s : pMap) (kind : String) (k : String) (cat : PolicyType)
    (h : ruleCategory e rule ≠ some cat) :
    (catStep e rule pName s kind).kindDataMap k cat = s.kindDataMap k cat := by
  cases hrc : ruleCategory e rule with
  | none => simp [catStep, hrc]
  | some cat' =>
    have hne : cat ≠ cat' := by
      intro hcc
      rw [← hcc] at hrc
      exact h hrc
    simp only [catStep, hrc]
    exact addStep_kindDataMap_other pName cat' s kind k cat (fun hand => hne hand.2)

theorem catStep_fix (e : Bool) (rule : Rule) (pName : String) (s : pMap)
    (kind : String)
    (h : ∀ cat, ruleCategory e rule = some cat →
      s.nameCacheMap cat (kind ++ "/" ++ pName) = true) :
    catStep e rule pName s kind = s := by
  cases hrc : ruleCategory e rule with
  | none => simp [catStep, hrc]
  | some cat =>
    simp only [catStep, hrc]
    exact addStep_of_cache_true pName cat s kind (h cat hrc)

/-! ### Invariants preserved by the insert step -/

/-- Every identifier present in the kind index has its membership bit set.
This holds along Add-only histories; `Remove` breaks it. -/
def goodState (s : pMap) : Prop :=
  ∀ kind cat name, name ∈ s.kindDataMap kind cat →
    s.nameCacheMap cat (kind ++ "/" ++ name) = true

/-- Every identifier occurs at most once in each `kindDataMap[kind][cat]`. -/
def countOK (s : pMap) : Prop :=
  ∀ kind cat name, List.count name (s.kindDataMap kind cat) ≤ 1

/-- A membership bit for identifier `pName` implies its presence in the kind
index (converse of `goodState`, tracked for one fixed identifier). -/
def tracked (pName : String) (s : pMap) : Prop :=
  ∀ kind cat, s.nameCacheMap cat (kind ++ "/" ++ pName) = true →
    pName ∈ s.kindDataMap kind cat

theorem addStep_goodState (pName : String) (cat₀ : PolicyType) (s : pMap)
    (kind₀ : String) (hg : goodState s) :
    goodState (addStep pName cat₀ s kind₀) := by
  by_cases hb : s.nameCacheMap cat₀ (kind₀ ++ "/" ++ pName) = false
  · intro kind cat name hmem
    unfold addStep at hmem ⊢
    rw [if_pos hb] at hmem ⊢
    rw [appendEntry_kindDataMap, setCache_kindDataMap] at hmem
    rw [appendEntry_nameCacheMap, setCache_nameCacheMap]
    by_cases hcond : kind = kind₀ ∧ cat = cat₀
    · rw [if_pos hcond] at hmem
      rcases List.mem_append.mp hmem with hin | hin
      · have h1 := hg kind cat name hin
        split
        · rfl
        · exact h1
      · have hnp : name = pName := List.mem_singleton.mp hin
        subst hnp
        have hkey : cat = cat₀ ∧ kind ++ "/" ++ name = kind₀ ++ "/" ++ name :=
          ⟨hcond.2, by rw [hcond.1]⟩
        rw [if_pos hkey]
    · rw [if_neg hcond] at hmem
      have h1 := hg kind cat name hmem
      split
      · rfl
      · exact h1
  · intro kind cat name hmem
    unfold addStep at hmem ⊢
    rw [if_neg hb] at hmem ⊢
    exact hg kind cat name hmem

theorem addStep_countOK (pName : String) (cat₀ : PolicyType) (s : pMap)
    (kind₀ : String) (hg : goodState s) (hc : countOK s) :
    countOK (addStep pName cat₀ s kind₀) := by
  by_cases hb : s.nameCacheMap cat₀ (kind₀ ++ "/" ++ pName) = false
  · intro kind cat name
    unfold addStep
    rw [if_pos hb, appendEntry_kindDataMap, setCache_kindDataMap]
    by_cases hcond : kind = kind₀ ∧ cat = cat₀
    · rw [if_pos hcond]
      by_cases hname : name = pName
      · subst hname
        have hnot : name ∉ s.kindDataMap kind cat := by
          intro hmem
          have hcache := hg kind cat name hmem
          rw [hcond.1, hcond.2] at hcache
          simp [hcache] at hb
        have h0 : List.count name (s.kindDataMap kind cat) = 0 :=
          List.count_eq_zero.mpr hnot
        have hstep :
            List.count name (s.kindDataMap kind cat ++ [name]) =
              List.count name (s.kindDataMap kind cat) + 1 := by simp
        rw [hstep, h0]
      · have hstep :
            List.count name (s.kindDataMap kind cat ++ [pName]) =
              List.count name (s.kindDataMap kind cat) := by simp [hname]
        rw [hstep]
        exact hc kind cat name
    · rw [if_neg hcond]
      exact hc kind cat name
  · intro kind cat name
    unfold addStep
    rw [if_neg hb]
    exact hc kind cat name

theorem addStep_tracked (pName : String) (cat₀ : PolicyType) (s : pMap)
    (kind₀ : String) (ht : tracked pName s) :
    tracked pName (addStep pName cat₀ s kind₀) := by
  by_cases hb : s.nameCacheMap cat₀ (kind₀ ++ "/" ++ pName) = false
  · intro kind cat hcache
    unfold addStep at hcache ⊢
    rw [if_pos hb] at hcache ⊢
    rw [appendEntry_nameCacheMap, setCache_nameCacheMap] at hcache
    rw [appendEntry_kindDataMap, setCache_kindDataMap]
    by_cases hcond : cat = cat₀ ∧ kind ++ "/" ++ pName = kind₀ ++ "/" ++ pName
    · have hkind : kind = kind₀ := composite_key_inj _ _ _ hcond.2
      have hpos : kind = kind₀ ∧ cat = cat₀ := ⟨hkind, hcond.1⟩
      rw [if_pos hpos]
      exact List.mem_append.mpr (Or.inr (List.mem_singleton.mpr rfl))
    · rw [if_neg hcond] at hcache
      have hmem := ht kind cat hcache
      split
      · exact List.mem_append.mpr (Or.inl hmem)
      · exact hmem
  · intro kind cat hcache
    unfold addStep at hcache ⊢
    rw [if_neg hb] at hcache ⊢
    exact ht kind cat hcache

theorem catStep_goodState (e : Bool) (rule : Rule) (pName : String) (s : pMap)
    (kind : String) (hg : goodState s) :
    goodState (catStep e rule pName s kind) := by
  cases hrc : ruleCategory e rule with
  | none => simpa [catStep, hrc] using hg
  | some cat =>
    simp only [catStep, hrc]
    exact addStep_goodState pName cat s kind hg

theorem catStep_countOK (e : Bool) (rule : Rule) (pName : String) (s : pMap)
    (kind : String) (hg : goodState s) (hc : countOK s) :
    countOK (catStep e rule pName s kind) := by
  cases hrc : ruleCategory e rule with
  | none => simpa [catStep, hrc] using hc
  | some cat =>
    simp only [catStep, hrc]
    exact addStep_countOK pName cat s kind hg hc

theorem catStep_tracked (e : Bool) (rule : Rule) (pName : String) (s : pMap)
    (kind : String) (ht : tracked pName s) :
    tracked pName (catStep e rule pName s kind) := by
  cases hrc : ruleCategory e rule with
  | none => simpa [catStep, hrc] using ht
  | some cat =>
    simp only [catStep, hrc]
    exact addStep_tracked pName cat s kind ht

/-! ### Lemmas about a whole `pMap.add` call -/

theorem add_cache_mono (s : pMap) (policy : ClusterPolicy) (c : PolicyType)
    (k : String) (h : s.nameCacheMap c k = true) :
    (pMap.add s policy).nameCacheMap c k = true := by
  rw [add_eq_addCanon]
  unfold addCanon
  refine foldl_preserve _ (fun b => b.nameCacheMap c k = true) ?_ policy.rules s h
  intro b rule hb
  unfold ruleStep
  exact foldl_preserve _ (fun b' => b'.nameCacheMap c k = true)
    (fun b' kind hb' => catStep_cache_mono _ rule _ b' kind c k hb')
    rule.matchKinds b hb

theorem add_kindDataMap_extend (s : pMap) (policy : ClusterPolicy)
    (k : String) (c : PolicyType) :
    ∃ t, (pMap.add s policy).kindDataMap k c = s.kindDataMap k c ++ t := by
  rw [add_eq_addCanon]
  unfold addCanon
  refine foldl_preserve _
    (fun b => ∃ t, b.kindDataMap k c = s.kindDataMap k c ++ t) ?_ policy.rules s
    ⟨[], by simp⟩
  intro b rule hb
  unfold ruleStep
  refine foldl_preserve _
    (fun b' => ∃ t, b'.kindDataMap k c = s.kindDataMap k c ++ t) ?_
    rule.matchKinds b hb
  intro b' kind hb'
  obtain ⟨u, hu⟩ := hb'
  obtain ⟨v, hv⟩ := catStep_kindDataMap_extend _ rule _ b' kind k c
  exact ⟨u ++ v, by rw [hv, hu, List.append_assoc]⟩

theorem add_cache_classified (s : pMap) (policy : ClusterPolicy) (rule : Rule)
    (kind : String) (cat : PolicyType)
    (hr : rule ∈ policy.rules) (hk : kind ∈ rule.matchKinds)
    (hrc : ruleCategory (policy.validationFailureAction == "enforce") rule = some cat) :
    (pMap.add s policy).nameCacheMap cat (kind ++ "/" ++ policyIdent policy) = true := by
  rw [add_eq_addCanon]
  unfold addCanon
  refine foldl_establish _
    (fun b => b.nameCacheMap cat (kind ++ "/" ++ policyIdent policy) = true)
    rule ?_ ?_ policy.rules s hr
  · intro b
    unfold ruleStep
    refine foldl_establish _
      (fun b' => b'.nameCacheMap cat (kind ++ "/" ++ policyIdent policy) = true)
      kind ?_ ?_ rule.matchKinds b hk
    · intro b'
      exact catStep_cache_classified _ rule _ b' kind cat hrc
    · intro b' x hb'
      exact catStep_cache_mono _ rule _ b' x cat _ hb'
  · intro b rule' hb
    unfold ruleStep
    exact foldl_preserve _
      (fun b' => b'.nameCacheMap cat (kind ++ "/" ++ policyIdent policy) = true)
      (fun b' x hb' => catStep_cache_mono _ rule' _ b' x cat _ hb')
      rule'.matchKinds b hb

theorem add_kindDataMap_not_classified (s : pMap) (policy : ClusterPolicy)
    (k : String) (cat : PolicyType)
    (h : ∀ rule ∈ policy.rules,
      ruleCategory (policy.validationFailureAction == "enforce") rule ≠ some cat) :
    (pMap.add s policy).kindDataMap k cat = s.kindDataMap k cat := by
  rw [add_eq_addCanon]
  unfold addCanon
  refine foldl_preserve_mem _ (fun b => b.kindDataMap k cat = s.kindDataMap k cat)
    policy.rules ?_ s rfl
  intro b rule hrule hb
  unfold ruleStep
  refine foldl_preserve _ (fun b' => b'.kindDataMap k cat = s.kindDataMap k cat)
    ?_ rule.matchKinds b hb
  intro b' kind hb'
  rw [catStep_kindDataMap_not_classified _ rule _ b' kind k cat (h rule hrule)]
  exact hb'

theorem add_changed_classified (s : pMap) (policy : ClusterPolicy)
    (k : String) (cat : PolicyType)
    (hch : (pMap.add s policy).kindDataMap k cat ≠ s.kindDataMap k cat) :
    ∃ rule ∈ policy.rules,
      ruleCategory (policy.validationFailureAction == "enforce") rule = some cat := by
  by_contra hnot
  push_neg at hnot
  exact hch (add_kindDataMap_not_classified s policy k cat hnot)

theorem add_fix (s : pMap) (policy : ClusterPolicy)
    (h : ∀ rule ∈ policy.rules, ∀ kind ∈ rule.matchKinds, ∀ cat,
      ruleCategory (policy.validationFailureAction == "enforce") rule = some cat →
      s.nameCacheMap cat (kind ++ "/" ++ policyIdent policy) = true) :
    pMap.add s policy = s := by
  rw [add_eq_addCanon]
  unfold addCanon
  apply foldl_fix
  intro rule hr
  unfold ruleStep
  apply foldl_fix
  intro kind hk
  exact catStep_fix _ rule _ s kind (fun cat hrc => h rule hr kind hk cat hrc)

/-- Idempotence of Add: an immediate re-Add of the same policy is a no-op
on the whole state. -/
theorem add_idem (s : pMap) (policy : ClusterPolicy) :
    pMap.add (pMap.add s policy) policy = pMap.add s policy :=
  add_fix _ _
    (fun rule hr kind hk cat hrc =>
      add_cache_classified s policy rule kind cat hr hk hrc)

theorem add_goodState_countOK (s : pMap) (policy : ClusterPolicy)
    (hg : goodState s) (hc : countOK s) :
    goodState (pMap.add s policy) ∧ countOK (pMap.add s policy) := by
  rw [add_eq_addCanon]
  unfold addCanon
  refine foldl_preserve _ (fun b => goodState b ∧ countOK b) ?_ policy.rules s ⟨hg, hc⟩
  intro b rule hb
  unfold ruleStep
  refine foldl_preserve _ (fun b' => goodState b' ∧ countOK b') ?_ rule.matchKinds b hb
  intro b' kind hb'
  exact ⟨catStep_goodState _ rule _ b' kind hb'.1,
    catStep_countOK _ rule _ b' kind hb'.1 hb'.2⟩

theorem add_tracked (s : pMap) (policy : ClusterPolicy)
    (ht : tracked (policyIdent policy) s) :
    tracked (policyIdent policy) (pMap.add s policy) := by
  rw [add_eq_addCanon]
  unfold addCanon
  refine foldl_preserve _ (tracked (policyIdent policy)) ?_ policy.rules s ht
  intro b rule hb
  unfold ruleStep
  exact foldl_preserve _ (tracked (policyIdent policy))
    (fun b' kind hb' => catStep_tracked _ rule _ b' kind hb')
    rule.matchKinds b hb

theorem emptyPMap_goodState : goodState emptyPMap := by
  intro kind cat name hmem
  exact absurd hmem (List.not_mem_nil name)

theorem emptyPMap_countOK : countOK emptyPMap := by
  intro kind cat name
  simp [emptyPMap]

theorem emptyPMap_tracked (pName : String) : tracked pName emptyPMap := by
  intro kind cat hcache
  exact absurd hcache (by simp [emptyPMap])

theorem applyAdds_goodState_countOK (ps : List ClusterPolicy) :
    goodState (applyAdds ps emptyPMap) ∧ countOK (applyAdds ps emptyPMap) := by
  unfold applyAdds
  refine foldl_preserve _ (fun b => goodState b ∧ countOK b) ?_ ps emptyPMap
    ⟨emptyPMap_goodState, emptyPMap_countOK⟩
  intro b policy hb
  exact add_goodState_countOK b policy hb.1 hb.2

/-! ### Lemmas about `pMap.remove` -/

theorem remove_eq (s : pMap) (policy : ClusterPolicy) :
    pMap.remove s policy =
      policy.rules.foldl
        (fun acc rule => rule.matchKinds.foldl (removeKind (policyIdent policy)) acc)
        s := rfl

theorem removeKind_kindDataMap (pName : String) (s : pMap) (kind : String) :
    (removeKind pName s kind).kindDataMap = s.kindDataMap := rfl

theorem removeKind_nameCacheMap (pName : String) (s : pMap) (kind : String)
    (c : PolicyType) (k : String) :
    (removeKind pName s kind).nameCacheMap c k =
      if k = kind ++ "/" ++ pName then false else s.nameCacheMap c k := rfl

theorem remove_kindDataMap (s : pMap) (policy : ClusterPolicy) :
    (pMap.remove s policy).kindDataMap = s.kindDataMap := by
  rw [remove_eq]
  refine foldl_preserve _ (fun b => b.kindDataMap = s.kindDataMap) ?_ policy.rules s rfl
  intro b rule hb
  refine foldl_preserve _ (fun b' => b'.kindDataMap = s.kindDataMap) ?_
    rule.matchKinds b hb
  intro b' kind hb'
  rw [removeKind_kindDataMap]
  exact hb'

theorem remove_cache_cleared (s : pMap) (policy : ClusterPolicy) (rule : Rule)
    (kind : String) (cat : PolicyType)
    (hr : rule ∈ policy.rules) (hk : kind ∈ rule.matchKinds) :
    (pMap.remove s policy).nameCacheMap cat (kind ++ "/" ++ policyIdent policy) = false := by
  rw [remove_eq]
  have hpres : ∀ (b : pMap) (x : String),
      b.nameCacheMap cat (kind ++ "/" ++ policyIdent policy) = false →
      (removeKind (policyIdent policy) b x).nameCacheMap cat
        (kind ++ "/" ++ policyIdent policy) = false := by
    intro b x hb
    rw [removeKind_nameCacheMap]
    split
    · rfl
    · exact hb
  refine foldl_establish _
    (fun b => b.nameCacheMap cat (kind ++ "/" ++ policyIdent policy) = false)
    rule ?_ ?_ policy.rules s hr
  · intro b
    refine foldl_establish _
      (fun b' => b'.nameCacheMap cat (kind ++ "/" ++ policyIdent policy) = false)
      kind ?_ ?_ rule.matchKinds b hk
    · intro b'
      rw [removeKind_nameCacheMap]
      simp
    · exact hpres
  · intro b rule' hb
    exact foldl_preserve _
      (fun b' => b'.nameCacheMap cat (kind ++ "/" ++ policyIdent policy) = false)
      hpres rule'.matchKinds b hb

/-! ### Lemmas about `pMap.get` -/

theorem getNames_eq_filterMap {P N : Type} (pLister : String → Option P)
    (npLister : String → String → Option N) (convert : Option N → Option P)
    (nspace : String) (l : List String) :
    getNames pLister npLister convert nspace l =
      ((l.filterMap (resolveEntry pLister npLister convert nspace)).map Prod.fst,
       (l.filterMap (resolveEntry pLister npLister convert nspace)).map Prod.snd) := by
  induction l with
  | nil => rfl
  | cons x l ih =>
    by_cases h1 : (ParseNamespacedPolicy x).2.2 = false
    · simp only [getNames, resolveEntry, List.filterMap_cons, if_pos h1, ih]
      simp
    · by_cases h2 : (ParseNamespacedPolicy x).1 = nspace
      · simp only [getNames, resolveEntry, List.filterMap_cons, if_neg h1, if_pos h2, ih]
        simp
      · simp only [getNames, resolveEntry, List.filterMap_cons, if_neg h1, if_neg h2, ih]

theorem mem_getNames_fst {P N : Type} (pLister : String → Option P)
    (npLister : String → String → Option N) (convert : Option N → Option P)
    (nspace : String) (l : List String) (x : String)
    (hx : x ∈ l) (hp : (ParseNamespacedPolicy x).2.2 = false) :
    x ∈ (getNames pLister npLister convert nspace l).1 := by
  induction l with
  | nil => cases hx
  | cons y l ih =>
    rcases List.mem_cons.mp hx with h | h
    · subst h
      simp only [getNames, if_pos hp]
      exact List.mem_cons_self _ _
    · have hmem := ih h
      by_cases h1 : (ParseNamespacedPolicy y).2.2 = false
      · simp only [getNames, if_pos h1]
        exact List.mem_cons_of_mem _ hmem
      · by_cases h2 : (ParseNamespacedPolicy y).1 = nspace
        · simp only [getNames, if_neg h1, if_pos h2]
          exact List.mem_cons_of_mem _ hmem
        · simp only [getNames, if_neg h1, if_neg h2]
          exact hmem

theorem ruleCategory_mutate (e : Bool) (rule : Rule) (hm : rule.hasMutate = true) :
    ruleCategory e rule = some Mutate := by
  simp [ruleCategory, hm]

theorem add_mem_classified (policy : ClusterPolicy) (rule : Rule) (kind : String)
    (cat : PolicyType) (hr : rule ∈ policy.rules) (hk : kind ∈ rule.matchKinds)
    (hrc : ruleCategory (policy.validationFailureAction == "enforce") rule = some cat) :
    policyIdent policy ∈ (pMap.add emptyPMap policy).kindDataMap kind cat :=
  add_tracked emptyPMap policy (emptyPMap_tracked _) kind cat
    (add_cache_classified emptyPMap policy rule kind cat hr hk hrc)

theorem add_kindDataMap_empty_not_classified (policy : ClusterPolicy) (rule : Rule)
    (kind : String) (cat : PolicyType) (hrules : policy.rules = [rule])
    (hrc : ruleCategory (policy.validationFailureAction == "enforce") rule ≠ some cat) :
    (pMap.add emptyPMap policy).kindDataMap kind cat = [] := by
  have hno : ∀ rule' ∈ policy.rules,
      ruleCategory (policy.validationFailureAction == "enforce") rule' ≠ some cat := by
    intro rule' hr'
    rw [hrules] at hr'
    have herule := List.mem_singleton.mp hr'
    subst herule
    exact hrc
  exact (add_kindDataMap_not_classified emptyPMap policy kind cat hno).trans rfl

end PolicyCache

namespace PolicyCache

open PolicyType

/-! ### The claims -/

/-- Claim C1: for every policy, Remove deletes the composite key
`kind ++ "/" ++ identifier` (for every rule of the policy and every kind the
rule matches) from the membership maps of all four enforcement categories
unconditionally, and leaves the ordered identifier sequences in
`kindDataMap` completely unchanged. -/
theorem claim_C1 (policy : ClusterPolicy) (s : pMap) (cat : PolicyType)
    (rule : Rule) (kind : String)
    (hr : rule ∈ policy.rules) (hk : kind ∈ rule.matchKinds) :
    (pMap.remove s policy).kindDataMap = s.kindDataMap ∧
    (pMap.remove s policy).nameCacheMap cat (kind ++ "/" ++ policyIdent policy) = false :=
  ⟨remove_kindDataMap s policy, remove_cache_cleared s policy rule kind cat hr hk⟩

/-- Claim C2: a rule with both mutate and validate capability is indexed
only under `Mutate`: after adding such a (single-rule, cluster-scoped)
policy to the empty cache, its name is in the `Mutate` sequence of every
matched kind, the two validate sequences stay empty, a Get under `Mutate`
returns the name, and Get under `ValidateEnforce`/`ValidateAudit` returns
nothing. -/
theorem claim_C2 {P N : Type} (policy : ClusterPolicy) (rule : Rule) (kind : String)
    (pLister : String → Option P) (npLister : String → String → Option N)
    (convert : Option N → Option P) (nspace : String)
    (hrules : policy.rules = [rule]) (hm : rule.hasMutate = true)
    (hv : rule.hasValidate = true) (hk : kind ∈ rule.matchKinds)
    (hns : policy.nspace = "")
    (hname : (ParseNamespacedPolicy policy.name).2.2 = false) :
    policy.name ∈ (pMap.add emptyPMap policy).kindDataMap kind Mutate ∧
    (pMap.add emptyPMap policy).kindDataMap kind ValidateEnforce = [] ∧
    (pMap.add emptyPMap policy).kindDataMap kind ValidateAudit = [] ∧
    policy.name ∈
      (pMap.get pLister npLister convert (pMap.add emptyPMap policy)
        Mutate kind nspace).1 ∧
    pMap.get pLister npLister convert (pMap.add emptyPMap policy)
      ValidateEnforce kind nspace = ([], []) ∧
    pMap.get pLister npLister convert (pMap.add emptyPMap policy)
      ValidateAudit kind nspace = ([], []) := by
  have hrule_mem : rule ∈ policy.rules := by
    rw [hrules]; exact List.mem_cons_self _ _
  have hrc : ruleCategory (policy.validationFailureAction == "enforce") rule
      = some Mutate := ruleCategory_mutate _ rule hm
  have hpid : policyIdent policy = policy.name := by
    simp [policyIdent, hns]
  have hmem : policy.name ∈ (pMap.add emptyPMap policy).kindDataMap kind Mutate := by
    rw [← hpid]
    exact add_mem_classified policy rule kind Mutate hrule_mem hk hrc
  have hVE : (pMap.add emptyPMap policy).kindDataMap kind ValidateEnforce = [] :=
    add_kindDataMap_empty_not_classified policy rule kind ValidateEnforce hrules
      (by rw [hrc]; simp)
  have hVA : (pMap.add emptyPMap policy).kindDataMap kind ValidateAudit = [] :=
    add_kindDataMap_empty_not_classified policy rule kind ValidateAudit hrules
      (by rw [hrc]; simp)
  refine ⟨hmem, hVE, hVA, ?_, ?_, ?_⟩
  · unfold pMap.get
    exact mem_getNames_fst pLister npLister convert nspace _ policy.name hmem hname
  · unfold pMap.get
    rw [hVE]
    rfl
  · unfold pMap.get
    rw [hVA]
    rfl

/-- Claim C3: a validate-only rule lands under `ValidateEnforce` exactly
when the policy's validation-failure action is the string `"enforce"`, and
under `ValidateAudit` for every other value. -/
theorem claim_C3 (policy : ClusterPolicy) (rule : Rule) (kind : String)
    (hrules : policy.rules = [rule]) (hm : rule.hasMutate = false)
    (hv : rule.hasValidate = true) (hk : kind ∈ rule.matchKinds) :
    (policyIdent policy ∈
        (pMap.add emptyPMap policy).kindDataMap kind ValidateEnforce ↔
      policy.validationFailureAction = "enforce") ∧
    (policyIdent policy ∈
        (pMap.add emptyPMap policy).kindDataMap kind ValidateAudit ↔
      policy.validationFailureAction ≠ "enforce") := by
  have hrule_mem : rule ∈ policy.rules := by
    rw [hrules]; exact List.mem_cons_self _ _
  by_cases ha : policy.validationFailureAction = "enforce"
  · have he : (policy.validationFailureAction == "enforce") = true := beq_iff_eq.mpr ha
    have hrc : ruleCategory (policy.validationFailureAction == "enforce") rule
        = some ValidateEnforce := by
      simp [ruleCategory, hm, hv, he]
    have hmem := add_mem_classified policy rule kind ValidateEnforce hrule_mem hk hrc
    have hVA : (pMap.add emptyPMap policy).kindDataMap kind ValidateAudit = [] :=
      add_kindDataMap_empty_not_classified policy rule kind ValidateAudit hrules
        (by rw [hrc]; simp)
    refine ⟨⟨fun _ => ha, fun _ => hmem⟩, ?_, ?_⟩
    · intro hmem2
      rw [hVA] at hmem2
      exact absurd hmem2 (List.not_mem_nil _)
    · intro hne
      exact absurd ha hne
  · have he : (policy.validationFailureAction == "enforce") = false := by
      simp [ha]
    have hrc : ruleCategory (policy.validationFailureAction == "enforce") rule
        = some ValidateAudit := by
      simp [ruleCategory, hm, hv, he]
    have hmem := add_mem_classified policy rule kind ValidateAudit hrule_mem hk hrc
    have hVE : (pMap.add emptyPMap policy).kindDataMap kind ValidateEnforce = [] :=
      add_kindDataMap_empty_not_classified policy rule kind ValidateEnforce hrules
        (by rw [hrc]; simp)
    refine ⟨⟨?_, ?_⟩, ⟨fun _ => ha, fun _ => hmem⟩⟩
    · intro hmem2
      rw [hVE] at hmem2
      exact absurd hmem2 (List.not_mem_nil _)
    · intro haction
      exact absurd haction ha

/-- Claim C4: Add is idempotent on the kind index: adding the same policy
twice yields the same `kindDataMap` contents as adding it once, for every
(kind, category) pair and from every starting state. -/
theorem claim_C4 (policy : ClusterPolicy) (s : pMap) (kind : String)
    (cat : PolicyType) :
    (pMap.add (pMap.add s policy) policy).kindDataMap kind cat =
      (pMap.add s policy).kindDataMap kind cat := by
  rw [add_idem]

/-- Claim C5 (amended): along every Add-only history from the empty index,
every identifier appears in `kindDataMap[kind][cat]` at most once.  The
original claim, over histories that also contain Remove, is false: see
`claim_C5_counterexample`. -/
theorem claim_C5 (ps : List ClusterPolicy) (kind : String) (cat : PolicyType)
    (name : String) :
    List.count name ((applyAdds ps emptyPMap).kindDataMap kind cat) ≤ 1 :=
  (applyAdds_goodState_countOK ps).2 kind cat name

/-- A cluster-scoped policy with one generate rule matching `ConfigMap`,
used to exhibit the Remove/re-Add duplication. -/
def cex5Policy : ClusterPolicy :=
  { name := "p3", nspace := "", validationFailureAction := "audit",
    rules := [{ matchKinds := ["ConfigMap"], hasMutate := false,
                hasValidate := false, hasGenerate := true }] }

/-- Claim C5 counterexample: the sequence Add, Remove, Add of the same
policy (starting from the empty index) leaves the identifier `"p3"` twice
in `kindDataMap["ConfigMap"][Generate]`, because Remove prunes only the
membership side-index. -/
theorem claim_C5_counterexample :
    ¬ List.count "p3"
        ((pMap.add (pMap.remove (pMap.add emptyPMap cex5Policy) cex5Policy)
            cex5Policy).kindDataMap "ConfigMap" Generate) ≤ 1 := by
  decide

/-- Claim C6: the two sequences returned by Get have equal length, and
their positional pairing is exactly the per-entry resolution of the indexed
identifier sequence, so entries at equal positions stem from the same
indexed policy identifier. -/
theorem claim_C6 {P N : Type} (pLister : String → Option P)
    (npLister : String → String → Option N) (convert : Option N → Option P)
    (s : pMap) (key : PolicyType) (kind : String) (nspace : String) :
    (pMap.get pLister npLister convert s key kind nspace).1.length =
      (pMap.get pLister npLister convert s key kind nspace).2.length ∧
    (pMap.get pLister npLister convert s key kind nspace).1.zip
        (pMap.get pLister npLister convert s key kind nspace).2 =
      (s.kindDataMap kind key).filterMap
        (resolveEntry pLister npLister convert nspace) := by
  unfold pMap.get
  rw [getNames_eq_filterMap]
  constructor
  · simp
  · simp [List.zip_map']

/-- Claim C7: a namespaced indexed identifier is included by Get exactly
when its namespace equals the requested one, and in that case the
unqualified name is appended together with the converted lister result;
on a mismatch neither an identifier nor an object is appended for the
entry. -/
theorem claim_C7 {P N : Type} (pLister : String → Option P)
    (npLister : String → String → Option N) (convert : Option N → Option P)
    (s : pMap) (pkey : PolicyType) (kind nspace policyName ns nm : String)
    (rest : List String)
    (hparse : ParseNamespacedPolicy policyName = (ns, nm, true))
    (hmap : s.kindDataMap kind pkey = policyName :: rest) :
    pMap.get pLister npLister convert s pkey kind nspace =
      if ns = nspace then
        (nm :: (getNames pLister npLister convert nspace rest).1,
         convert (npLister ns nm) ::
           (getNames pLister npLister convert nspace rest).2)
      else getNames pLister npLister convert nspace rest := by
  unfold pMap.get
  rw [hmap]
  simp [getNames, hparse]

/-- Claim C8: a cluster-scoped (namespace-free) indexed identifier is
always appended by Get, together with whatever the cluster lister returned
— including `none` when resolution failed; the failure is swallowed. -/
theorem claim_C8 {P N : Type} (pLister : String → Option P)
    (npLister : String → String → Option N) (convert : Option N → Option P)
    (s : pMap) (pkey : PolicyType) (kind nspace policyName nm : String)
    (rest : List String)
    (hparse : ParseNamespacedPolicy policyName = ("", nm, false))
    (hmap : s.kindDataMap kind pkey = policyName :: rest) :
    pMap.get pLister npLister convert s pkey kind nspace =
      (policyName :: (getNames pLister npLister convert nspace rest).1,
       pLister nm :: (getNames pLister npLister convert nspace rest).2) := by
  unfold pMap.get
  rw [hmap]
  simp [getNames, hparse]

/-- Claim C9 (amended): at most one enforcement category applies per
(rule, kind) pairing: a single-rule policy changes at most one category's
sequence under any kind.  The original per-policy claim is false for
multi-rule policies: see `claim_C9_counterexample`. -/
theorem claim_C9 (policy : ClusterPolicy) (rule : Rule) (s : pMap)
    (kind : String) (c₁ c₂ : PolicyType)
    (hrules : policy.rules = [rule])
    (h1 : (pMap.add s policy).kindDataMap kind c₁ ≠ s.kindDataMap kind c₁)
    (h2 : (pMap.add s policy).kindDataMap kind c₂ ≠ s.kindDataMap kind c₂) :
    c₁ = c₂ := by
  obtain ⟨rule1, hr1, hc1⟩ := add_changed_classified s policy kind c₁ h1
  obtain ⟨rule2, hr2, hc2⟩ := add_changed_classified s policy kind c₂ h2
  rw [hrules] at hr1 hr2
  have e1 : rule1 = rule := List.mem_singleton.mp hr1
  have e2 : rule2 = rule := List.mem_singleton.mp hr2
  subst e1
  subst e2
  rw [hc1] at hc2
  exact Option.some.inj hc2

/-- A cluster-scoped policy with a mutate-only rule and a validate-only
rule, both matching `Pod`. -/
def cex9Policy : ClusterPolicy :=
  { name := "p9", nspace := "", validationFailureAction := "audit",
    rules := [{ matchKinds := ["Pod"], hasMutate := true,
                hasValidate := false, hasGenerate := false },
              { matchKinds := ["Pod"], hasMutate := false,
                hasValidate := true, hasGenerate := false }] }

/-- Claim C9 counterexample: after adding a two-rule policy, its identifier
sits under two categories for the same kind — `Mutate` and
`ValidateAudit` — so at most one category per (policy, kind) is false. -/
theorem claim_C9_counterexample :
    "p9" ∈ (pMap.add emptyPMap cex9Policy).kindDataMap "Pod" Mutate ∧
    "p9" ∈ (pMap.add emptyPMap cex9Policy).kindDataMap "Pod" ValidateAudit := by
  decide

/-- Claim C10: Add is monotone: for every index state — including states
whose membership bits are cleared, such as post-Remove states — existing
kind-index entries survive in place (the old sequence is a prefix of the
new one, unconditionally), and every membership key that was present stays
present. -/
theorem claim_C10 (policy : ClusterPolicy) (s : pMap) (kind : String)
    (cat : PolicyType) (k : String) :
    (∃ t, (pMap.add s policy).kindDataMap kind cat = s.kindDataMap kind cat ++ t) ∧
    (s.nameCacheMap cat k = true → (pMap.add s policy).nameCacheMap cat k = true) :=
  ⟨add_kindDataMap_extend s policy kind cat,
   fun h => add_cache_mono s policy cat k h⟩

/-! ### Concrete witnesses -/

/-- A generate-only rule matching `Pod`. -/
def wRule1 : Rule :=
  { matchKinds := ["Pod"], hasMutate := false, hasValidate := false,
    hasGenerate := true }

/-- A cluster-scoped policy holding `wRule1`. -/
def wPolicy1 : ClusterPolicy :=
  { name := "p1", nspace := "", validationFailureAction := "audit",
    rules := [wRule1] }

theorem claim_C1_witness :
    (wRule1 ∈ wPolicy1.rules ∧ "Pod" ∈ wRule1.matchKinds) ∧
    ((pMap.remove emptyPMap wPolicy1).kindDataMap = emptyPMap.kindDataMap ∧
     (pMap.remove emptyPMap wPolicy1).nameCacheMap Generate
       ("Pod" ++ "/" ++ policyIdent wPolicy1) = false) :=
  ⟨⟨by decide, by decide⟩,
   claim_C1 wPolicy1 emptyPMap Generate wRule1 "Pod" (by decide) (by decide)⟩

/-- A rule with both mutate and validate capability, matching `Pod`. -/
def wRule2 : Rule :=
  { matchKinds := ["Pod"], hasMutate := true, hasValidate := true,
    hasGenerate := false }

/-- A cluster-scoped policy holding `wRule2`. -/
def wPolicy2 : ClusterPolicy :=
  { name := "p2", nspace := "", validationFailureAction := "audit",
    rules := [wRule2] }

/-- A cluster lister that always fails to resolve. -/
def wClusterLister : String → Option Unit := fun _ => none

/-- A namespaced lister that always fails to resolve. -/
def wNamespacedLister : String → String → Option Unit := fun _ _ => none

/-- A conversion that forwards absence. -/
def wConvert : Option Unit → Option Unit := fun _ => none

theorem claim_C2_witness :
    (wPolicy2.rules = [wRule2] ∧ wRule2.hasMutate = true ∧
     wRule2.hasValidate = true ∧ "Pod" ∈ wRule2.matchKinds ∧
     wPolicy2.nspace = "" ∧ (ParseNamespacedPolicy wPolicy2.name).2.2 = false) ∧
    (wPolicy2.name ∈ (pMap.add emptyPMap wPolicy2).kindDataMap "Pod" Mutate ∧
     (pMap.add emptyPMap wPolicy2).kindDataMap "Pod" ValidateEnforce = [] ∧
     (pMap.add emptyPMap wPolicy2).kindDataMap "Pod" ValidateAudit = [] ∧
     wPolicy2.name ∈
       (pMap.get wClusterLister wNamespacedLister wConvert
         (pMap.add emptyPMap wPolicy2) Mutate "Pod" "").1 ∧
     pMap.get wClusterLister wNamespacedLister wConvert
       (pMap.add emptyPMap wPolicy2) ValidateEnforce "Pod" "" = ([], []) ∧
     pMap.get wClusterLister wNamespacedLister wConvert
       (pMap.add emptyPMap wPolicy2) ValidateAudit "Pod" "" = ([], [])) :=
  ⟨⟨rfl, rfl, rfl, by decide, rfl, by decide⟩,
   claim_C2 wPolicy2 wRule2 "Pod" wClusterLister wNamespacedLister wConvert ""
     rfl rfl rfl (by decide) rfl (by decide)⟩

/-- A validate-only rule matching `Pod`. -/
def wRule3 : Rule :=
  { matchKinds := ["Pod"], hasMutate := false, hasValidate := true,
    hasGenerate := false }

/-- A cluster-scoped enforce-mode policy holding `wRule3`. -/
def wPolicy3 : ClusterPolicy :=
  { name := "p3", nspace := "", validationFailureAction := "enforce",
    rules := [wRule3] }

theorem claim_C3_witness :
    (wPolicy3.rules = [wRule3] ∧ wRule3.hasMutate = false ∧
     wRule3.hasValidate = true ∧ "Pod" ∈ wRule3.matchKinds) ∧
    ((policyIdent wPolicy3 ∈
        (pMap.add emptyPMap wPolicy3).kindDataMap "Pod" ValidateEnforce ↔
      wPolicy3.validationFailureAction = "enforce") ∧
     (policyIdent wPolicy3 ∈
        (pMap.add emptyPMap wPolicy3).kindDataMap "Pod" ValidateAudit ↔
      wPolicy3.validationFailureAction ≠ "enforce")) :=
  ⟨⟨rfl, rfl, rfl, by decide⟩,
   claim_C3 wPolicy3 wRule3 "Pod" rfl rfl rfl (by decide)⟩

/-- A cache state whose `Pod`/`Mutate` sequence holds the namespaced
identifier `"ns1/p1"`. -/
def wState7 : pMap :=
  { kindDataMap := fun k c => if k = "Pod" ∧ c = Mutate then ["ns1/p1"] else [],
    nameCacheMap := fun _ _ => false }

theorem claim_C7_witness :
    (ParseNamespacedPolicy "ns1/p1" = ("ns1", "p1", true) ∧
     wState7.kindDataMap "Pod" Mutate = ["ns1/p1"]) ∧
    pMap.get wClusterLister wNamespacedLister wConvert wState7 Mutate "Pod" "ns1" =
      (if "ns1" = "ns1" then
        ("p1" :: (getNames wClusterLister wNamespacedLister wConvert "ns1" []).1,
         wConvert (wNamespacedLister "ns1" "p1") ::
           (getNames wClusterLister wNamespacedLister wConvert "ns1" []).2)
      else getNames wClusterLister wNamespacedLister wConvert "ns1" []) :=
  ⟨⟨by decide, by decide⟩,
   claim_C7 wClusterLister wNamespacedLister wConvert wState7 Mutate "Pod" "ns1"
     "ns1/p1" "ns1" "p1" [] (by decide) (by decide)⟩

/-- A cache state whose `Pod`/`Generate` sequence holds the cluster-scoped
identifier `"p1"`. -/
def wState8 : pMap :=
  { kindDataMap := fun k c => if k = "Pod" ∧ c = Generate then ["p1"] else [],
    nameCacheMap := fun _ _ => false }

theorem claim_C8_witness :
    (ParseNamespacedPolicy "p1" = ("", "p1", false) ∧
     wState8.kindDataMap "Pod" Generate = ["p1"]) ∧
    pMap.get wClusterLister wNamespacedLister wConvert wState8 Generate "Pod" "ns2" =
      ("p1" :: (getNames wClusterLister wNamespacedLister wConvert "ns2" []).1,
       wClusterLister "p1" ::
         (getNames wClusterLister wNamespacedLister wConvert "ns2" []).2) :=
  ⟨⟨by decide, by decide⟩,
   claim_C8 wClusterLister wNamespacedLister wConvert wState8 Generate "Pod" "ns2"
     "p1" "p1" [] (by decide) (by decide)⟩

/-- A mutate-only rule matching `Pod`. -/
def wRule9 : Rule :=
  { matchKinds := ["Pod"], hasMutate := true, hasValidate := false,
    hasGenerate := false }

/-- A cluster-scoped policy holding `wRule9`. -/
def wPolicy9 : ClusterPolicy :=
  { name := "p", nspace := "", validationFailureAction := "audit",
    rules := [wRule9] }

theorem claim_C9_witness :
    (wPolicy9.rules = [wRule9] ∧
     (pMap.add emptyPMap wPolicy9).kindDataMap "Pod" Mutate ≠
       emptyPMap.kindDataMap "Pod" Mutate) ∧
    Mutate = Mutate :=
  ⟨⟨rfl, by decide⟩,
   claim_C9 wPolicy9 wRule9 emptyPMap "Pod" Mutate Mutate rfl (by decide) (by decide)⟩

/-- A cache state with every membership bit set and empty sequences. -/
def wState10 : pMap :=
  { kindDataMap := fun _ _ => [], nameCacheMap := fun _ _ => true }

theorem claim_C10_witness :
    wState10.nameCacheMap Mutate "k" = true ∧
    ((∃ t, (pMap.add wState10 wPolicy9).kindDataMap "Pod" Mutate =
        wState10.kindDataMap "Pod" Mutate ++ t) ∧
     (wState10.nameCacheMap Mutate "k" = true →
       (pMap.add wState10 wPolicy9).nameCacheMap Mutate "k" = true)) :=
  ⟨rfl, claim_C10 wPolicy9 wState10 "Pod" Mutate "k"⟩

end PolicyCache

